import Mathlib

/-!
Verification of the usage-aggregation engine of ccusage-statusline-rs.

This file shallowly embeds the data model and operations of the repository:
tiered pricing from src/types.rs, billing-window grouping and active-block
selection from src/blocks.rs, the render-result cache from src/cache.rs and
src/main.rs, the pricing-table loader from src/pricing.rs, and the
remote-quota fetch from src/api_usage.rs.  Conventions of the embedding:

- Rust f64 money values are modelled as rationals: the claims about prices
  concern the arithmetic structure of the cost formulas, which the source
  expresses by ordinary products and sums.
- chrono timestamps are modelled as Int milliseconds since the Unix epoch
  (UTC); seconds-granularity values (file mtimes, epoch clocks) are Int or
  Nat seconds as the source reads them.
- serde / chrono parsers are external library calls; they enter the
  embedding as function parameters (String to Option of the parsed shape),
  so every control path of the source that depends on a parse outcome is
  represented.
- anyhow::Result is Except Unit: the source never inspects the error
  payload of the operations modelled here, only whether they failed.
- filesystem and network effects are passed in as explicit data (the read
  results the source would observe), one parameter per effectful read.
-/

namespace Ccusage

/-! ## Data model (src/types.rs) -/

/-- Token counts of one usage entry (struct UsageTokens, src/types.rs). -/
structure UsageTokens where
  input_tokens : Nat
  output_tokens : Nat
  cache_creation_input_tokens : Nat
  cache_read_input_tokens : Nat
deriving DecidableEq, Repr

/-- Message payload of a usage entry (struct MessageData, src/types.rs). -/
structure MessageData where
  model : Option String
  id : Option String
  usage : UsageTokens
deriving DecidableEq, Repr

/-- One JSONL usage record (struct UsageData, src/types.rs); the timestamp
is kept as the raw string exactly as the source stores it, and is parsed
on demand by group_into_blocks. -/
structure UsageData where
  timestamp : String
  message : MessageData
  request_id : Option String
deriving DecidableEq, Repr

/-- LiteLLM per-model price schedule (struct ModelPricing, src/types.rs);
f64 prices are modelled as rationals. -/
structure ModelPricing where
  input_cost_per_token : Option ℚ
  output_cost_per_token : Option ℚ
  cache_creation_input_token_cost : Option ℚ
  cache_read_input_token_cost : Option ℚ
  input_cost_per_token_above_200k_tokens : Option ℚ
  output_cost_per_token_above_200k_tokens : Option ℚ
  cache_creation_input_token_cost_above_200k_tokens : Option ℚ
  cache_read_input_token_cost_above_200k_tokens : Option ℚ
deriving DecidableEq, Repr

/-- ModelPricing::THRESHOLD (src/types.rs). -/
def THRESHOLD : Nat := 200000

/-- ModelPricing::calculate_tiered_cost (src/types.rs lines 79-97).  The
Rust method ignores self, so the receiver is dropped here. -/
def calculate_tiered_cost (tokens : Nat) (base_price tiered_price : Option ℚ) : ℚ :=
  if tokens = 0 then 0
  else
    let base := base_price.getD 0
    if tokens ≤ THRESHOLD then (tokens : ℚ) * base
    else
      let tiered := tiered_price.getD base
      (THRESHOLD : ℚ) * base + (((tokens - THRESHOLD : Nat)) : ℚ) * tiered

/-- ModelPricing::calculate_cost (src/types.rs lines 100-126): sum of the
four per-category tiered costs. -/
def ModelPricing.calculate_cost (p : ModelPricing) (usage : UsageTokens) : ℚ :=
  calculate_tiered_cost usage.input_tokens
      p.input_cost_per_token p.input_cost_per_token_above_200k_tokens
    + calculate_tiered_cost usage.output_tokens
      p.output_cost_per_token p.output_cost_per_token_above_200k_tokens
    + calculate_tiered_cost usage.cache_creation_input_tokens
      p.cache_creation_input_token_cost p.cache_creation_input_token_cost_above_200k_tokens
    + calculate_tiered_cost usage.cache_read_input_tokens
      p.cache_read_input_token_cost p.cache_read_input_token_cost_above_200k_tokens

/-- C2: the per-category tiered cost function is n*B up to the 200,000
threshold and 200000*B + (n - 200000)*T above it; exactly 200,000 tokens
cost 200000*B, 200,001 tokens cost 200000*B + 1*T, and an absent tiered
price defaults to the base price. -/
theorem claim_C2_tiered_cost (n : Nat) (B T : ℚ) :
    (n ≤ THRESHOLD → calculate_tiered_cost n (some B) (some T) = (n : ℚ) * B) ∧
    (THRESHOLD < n →
      calculate_tiered_cost n (some B) (some T)
        = (THRESHOLD : ℚ) * B + ((n : ℚ) - (THRESHOLD : ℚ)) * T) ∧
    (THRESHOLD < n →
      calculate_tiered_cost n (some B) none
        = (THRESHOLD : ℚ) * B + ((n : ℚ) - (THRESHOLD : ℚ)) * B) ∧
    (calculate_tiered_cost THRESHOLD (some B) (some T) = (THRESHOLD : ℚ) * B) ∧
    (calculate_tiered_cost (THRESHOLD + 1) (some B) (some T)
        = (THRESHOLD : ℚ) * B + 1 * T) := by
  refine ⟨?_, ?_, ?_, ?_, ?_⟩
  · intro h
    by_cases h0 : n = 0
    · subst h0; simp [calculate_tiered_cost]
    · simp [calculate_tiered_cost, h0, h]
  · intro h
    have h0 : n ≠ 0 := by omega
    have hle : ¬ n ≤ THRESHOLD := by omega
    have hc : ((n - THRESHOLD : Nat) : ℚ) = (n : ℚ) - (THRESHOLD : ℚ) :=
      Nat.cast_sub (le_of_lt h)
    simp [calculate_tiered_cost, h0, hle, hc]
  · intro h
    have h0 : n ≠ 0 := by omega
    have hle : ¬ n ≤ THRESHOLD := by omega
    have hc : ((n - THRESHOLD : Nat) : ℚ) = (n : ℚ) - (THRESHOLD : ℚ) :=
      Nat.cast_sub (le_of_lt h)
    simp [calculate_tiered_cost, h0, hle, hc]
  · simp [calculate_tiered_cost, THRESHOLD]
  · norm_num [calculate_tiered_cost, THRESHOLD]

/-- Witness for C2 at concrete inputs: 200,001 tokens at base 3, tier 5. -/
theorem claim_C2_tiered_cost_witness :
    calculate_tiered_cost 200001 (some 3) (some 5)
      = (THRESHOLD : ℚ) * 3 + ((200001 : ℚ) - (THRESHOLD : ℚ)) * 5 :=
  (claim_C2_tiered_cost 200001 3 5).2.1 (by norm_num [THRESHOLD])

/-! ## Billing-window aggregation (src/blocks.rs) -/

/-- A 5-hour billing block (struct Block, src/types.rs); instants are Int
milliseconds since the epoch, cost is a rational standing for the f64. -/
structure Block where
  start_time : Int
  end_time : Int
  cost_usd : ℚ
  total_tokens : Nat
  is_active : Bool
deriving DecidableEq, Repr

/-- BLOCK_DURATION_HOURS (src/blocks.rs line 10). -/
def BLOCK_DURATION_HOURS : Int := 5

/-- The block duration in milliseconds, as computed at the top of
group_into_blocks (src/blocks.rs line 29). -/
def session_duration_ms : Int := BLOCK_DURATION_HOURS * 60 * 60 * 1000

/-- floor_to_hour (src/blocks.rs lines 15-21): zeroing minute, second and
nanosecond of a UTC instant is flooring its epoch-milliseconds to the
enclosing multiple of 3,600,000 (Int.emod is nonnegative, so this also
floors pre-epoch instants, matching the calendar operation). -/
def floor_to_hour (t : Int) : Int := t - t % 3600000

/-- create_block_from_entries (src/blocks.rs lines 102-138).  parseTs
stands for chrono's RFC3339 parser, cost for
PricingFetcher::calculate_entry_cost on the given entry. -/
def create_block_from_entries (parseTs : String → Option Int) (cost : UsageData → ℚ)
    (start_time : Int) (entries : List UsageData) (now : Int)
    (session_duration : Int) : Block :=
  let end_time := start_time + session_duration
  let actual_end_time := ((entries.getLast?.bind (fun e => parseTs e.timestamp)).getD start_time)
  let time_since_last_activity := now - actual_end_time
  let is_active := decide (time_since_last_activity < session_duration) && decide (now < end_time)
  { start_time := start_time
    end_time := end_time
    cost_usd := entries.foldl (fun acc e => acc + cost e) 0
    total_tokens := entries.foldl
      (fun acc e => acc + (e.message.usage.input_tokens + e.message.usage.output_tokens)) 0
    is_active := is_active }

/-- The body of the entry loop of group_into_blocks (src/blocks.rs lines
35-96), as a recursion over the remaining entries.  The state is the
current block start (None before the first entry), the current block's
entry buffer, and the blocks already closed; a timestamp that fails to
parse propagates as an error exactly where the source applies the ?
operator. -/
def group_blocks_go (parseTs : String → Option Int) (cost : UsageData → ℚ) (now : Int) :
    List UsageData → Option Int → List UsageData → List Block → Except Unit (List Block)
  | [], curStart, curEntries, blocks =>
    match curStart with
    | some start =>
      if curEntries.isEmpty then .ok blocks
      else .ok (blocks ++
        [create_block_from_entries parseTs cost start curEntries now session_duration_ms])
    | none => .ok blocks
  | e :: rest, curStart, curEntries, blocks =>
    match parseTs e.timestamp with
    | none => .error ()
    | some t =>
      match curStart with
      | none => group_blocks_go parseTs cost now rest (some (floor_to_hour t)) [e] blocks
      | some start =>
        let time_since_block_start := t - start
        match curEntries.getLast? with
        | none =>
          -- last_entry is None: should_close_block is false
          group_blocks_go parseTs cost now rest curStart (curEntries ++ [e]) blocks
        | some last =>
          match parseTs last.timestamp with
          | none => .error ()
          | some lastT =>
            if session_duration_ms < time_since_block_start
                ∨ session_duration_ms < t - lastT then
              group_blocks_go parseTs cost now rest (some (floor_to_hour t)) [e]
                (blocks ++
                  [create_block_from_entries parseTs cost start curEntries now
                    session_duration_ms])
            else
              group_blocks_go parseTs cost now rest curStart (curEntries ++ [e]) blocks

/-- group_into_blocks (src/blocks.rs lines 24-99). -/
def group_into_blocks (parseTs : String → Option Int) (cost : UsageData → ℚ) (now : Int)
    (entries : List UsageData) : Except Unit (List Block) :=
  if entries.isEmpty then .ok []
  else group_blocks_go parseTs cost now entries none [] []

/-- C1: the window-closing decision is strictly greater-than against the
5-hour duration.  From any loop state with an open window (start, buffer
whose most recent entry parses to lastT), an incoming event parsing to t
with both gaps exactly equal to the duration is appended to the same
window; an event with either gap strictly above the duration closes the
window and opens a new one anchored at floor_to_hour t. -/
theorem claim_C1_window_close_strict (parseTs : String → Option Int) (cost : UsageData → ℚ)
    (now : Int) (rest : List UsageData) (blocks : List Block) (start lastT t : Int)
    (curEntries : List UsageData) (e last : UsageData)
    (hlast : curEntries.getLast? = some last)
    (hpl : parseTs last.timestamp = some lastT)
    (hpe : parseTs e.timestamp = some t) :
    ((t - start = session_duration_ms ∧ t - lastT = session_duration_ms) →
      group_blocks_go parseTs cost now (e :: rest) (some start) curEntries blocks
        = group_blocks_go parseTs cost now rest (some start) (curEntries ++ [e]) blocks) ∧
    ((session_duration_ms < t - start ∨ session_duration_ms < t - lastT) →
      group_blocks_go parseTs cost now (e :: rest) (some start) curEntries blocks
        = group_blocks_go parseTs cost now rest (some (floor_to_hour t)) [e]
            (blocks ++
              [create_block_from_entries parseTs cost start curEntries now
                session_duration_ms])) := by
  constructor
  · rintro ⟨h1, h2⟩
    have hno : ¬ (session_duration_ms < t - start ∨ session_duration_ms < t - lastT) := by
      omega
    simp [group_blocks_go, hpe, hlast, hpl, hno]
  · intro h
    simp [group_blocks_go, hpe, hlast, hpl, h]

/-- Witness for C1: one entry at epoch 0, next entry exactly 5h later stays
in the window; with the threshold exceeded by 1s it closes the window.  The
parser used here maps the three decimal strings to their values. -/
theorem claim_C1_window_close_strict_witness :
    (group_blocks_go (fun s => if s = "0" then some 0 else if s = "18000000" then some 18000000 else if s = "18001000" then some 18001000 else none) (fun _ => 0) 0
        [⟨"18000000", ⟨none, none, ⟨0, 0, 0, 0⟩⟩, none⟩] (some 0)
        [⟨"0", ⟨none, none, ⟨0, 0, 0, 0⟩⟩, none⟩] []
      = group_blocks_go (fun s => if s = "0" then some 0 else if s = "18000000" then some 18000000 else if s = "18001000" then some 18001000 else none) (fun _ => 0) 0 [] (some 0)
          ([⟨"0", ⟨none, none, ⟨0, 0, 0, 0⟩⟩, none⟩] ++
            [⟨"18000000", ⟨none, none, ⟨0, 0, 0, 0⟩⟩, none⟩]) []) ∧
    (group_blocks_go (fun s => if s = "0" then some 0 else if s = "18000000" then some 18000000 else if s = "18001000" then some 18001000 else none) (fun _ => 0) 0
        [⟨"18001000", ⟨none, none, ⟨0, 0, 0, 0⟩⟩, none⟩] (some 0)
        [⟨"0", ⟨none, none, ⟨0, 0, 0, 0⟩⟩, none⟩] []
      = group_blocks_go (fun s => if s = "0" then some 0 else if s = "18000000" then some 18000000 else if s = "18001000" then some 18001000 else none) (fun _ => 0) 0 [] (some (floor_to_hour 18001000))
          [⟨"18001000", ⟨none, none, ⟨0, 0, 0, 0⟩⟩, none⟩]
          ([] ++
            [create_block_from_entries (fun s => if s = "0" then some 0 else if s = "18000000" then some 18000000 else if s = "18001000" then some 18001000 else none) (fun _ => 0) 0
              [⟨"0", ⟨none, none, ⟨0, 0, 0, 0⟩⟩, none⟩] 0 session_duration_ms])) :=
  ⟨(claim_C1_window_close_strict (fun s => if s = "0" then some 0 else if s = "18000000" then some 18000000 else if s = "18001000" then some 18001000 else none) (fun _ => 0) 0 [] [] 0 0 18000000
      [⟨"0", ⟨none, none, ⟨0, 0, 0, 0⟩⟩, none⟩]
      ⟨"18000000", ⟨none, none, ⟨0, 0, 0, 0⟩⟩, none⟩
      ⟨"0", ⟨none, none, ⟨0, 0, 0, 0⟩⟩, none⟩ (by decide) (by decide) (by decide)).1
    (by constructor <;> norm_num [session_duration_ms, BLOCK_DURATION_HOURS]),
   (claim_C1_window_close_strict (fun s => if s = "0" then some 0 else if s = "18000000" then some 18000000 else if s = "18001000" then some 18001000 else none) (fun _ => 0) 0 [] [] 0 0 18001000
      [⟨"0", ⟨none, none, ⟨0, 0, 0, 0⟩⟩, none⟩]
      ⟨"18001000", ⟨none, none, ⟨0, 0, 0, 0⟩⟩, none⟩
      ⟨"0", ⟨none, none, ⟨0, 0, 0, 0⟩⟩, none⟩ (by decide) (by decide) (by decide)).2
    (Or.inl (by norm_num [session_duration_ms, BLOCK_DURATION_HOURS]))⟩

/-! ## Active-block selection (src/blocks.rs lines 211-233) -/

/-- The reverse iteration of find_active_block over the block list
(src/blocks.rs lines 213-223): the source copies the found block field by
field with is_active set to true. -/
def find_active_scan (now : Int) : List Block → Option Block
  | [] => none
  | b :: rest =>
    if b.is_active && decide (now < b.end_time) then
      some { start_time := b.start_time
             end_time := b.end_time
             cost_usd := b.cost_usd
             total_tokens := b.total_tokens
             is_active := true }
    else find_active_scan now rest

/-- The empty block synthesized when no block qualifies (src/blocks.rs
lines 226-232). -/
def empty_block (now : Int) : Block :=
  { start_time := now
    end_time := now + session_duration_ms
    cost_usd := 0
    total_tokens := 0
    is_active := false }

/-- The tail of find_active_block: scan the produced blocks from most
recent to least recent, else synthesize an empty block. -/
def select_active_block (now : Int) (blocks : List Block) : Block :=
  match find_active_scan now blocks.reverse with
  | some b => b
  | none => empty_block now

/-- The reverse scan is find? composed with the is_active copy. -/
theorem find_active_scan_eq_find? (now : Int) (l : List Block) :
    find_active_scan now l
      = (l.find? (fun b => b.is_active && decide (now < b.end_time))).map
          (fun b => { b with is_active := true }) := by
  induction l with
  | nil => rfl
  | cons b rest ih =>
    rw [List.find?_cons]
    by_cases h : (b.is_active && decide (now < b.end_time)) = true
    · simp [find_active_scan, h]
    · rw [find_active_scan]
      simp only [h, if_false, Bool.false_eq_true]
      simpa using ih

/-- C4: find_active_block scans the window list from most recent to least
recent and returns the first (hence, in list order, the last) window that
is active and whose end lies after now; when none qualifies, including the
empty list, it returns the synthesized window with start now, end
now + 5 hours, zero cost, zero tokens and liveness false. -/
theorem claim_C4_active_selection (now : Int) (blocks : List Block) :
    select_active_block now blocks
      = match (blocks.filter (fun b => b.is_active && decide (now < b.end_time))).getLast? with
        | some b => { b with is_active := true }
        | none =>
          { start_time := now
            end_time := now + session_duration_ms
            cost_usd := 0
            total_tokens := 0
            is_active := false } := by
  have h1 : find_active_scan now blocks.reverse
      = ((blocks.filter (fun b => b.is_active && decide (now < b.end_time))).getLast?).map
          (fun b => { b with is_active := true }) := by
    rw [find_active_scan_eq_find?]
    rw [← List.filter_head?]
    rw [List.filter_reverse]
    rw [List.head?_reverse]
  rw [select_active_block, h1]
  cases (blocks.filter (fun b => b.is_active && decide (now < b.end_time))).getLast? with
  | none => rfl
  | some b => rfl

/-! ## Render-result cache (src/cache.rs lines 17-57; duplicated in
src/main.rs lines 306-345) -/

/-- The persisted cache record (struct Semaphore, src/types.rs). -/
structure Semaphore where
  date : String
  last_output : String
  last_update_time : Nat
  transcript_path : String
  transcript_mtime : Nat
deriving DecidableEq, Repr

/-- The u64 subtraction now - last_update_time performed by
try_get_cached.  Rust declares unsigned underflow a program error (a
checked build panics there), so the underflowing case is exposed as none
rather than wrapped. -/
def u64_checked_sub (a b : Nat) : Option Nat :=
  if a < b then none else some (a - b)

/-- Outcome of try_get_cached: a normal return (cache hit carries the
stored text, miss is Rust Ok(None)), a propagated I/O error (the ?
operator on read_to_string or get_file_mtime), or the u64 underflow of
the age computation. -/
inductive CacheGetResult where
  | ok : Option String → CacheGetResult
  | ioError : CacheGetResult
  | underflowPanic : CacheGetResult
deriving DecidableEq, Repr

/-- try_get_cached (src/cache.rs lines 17-57).  Each effectful read is a
parameter: cache_exists is Path::exists, openOk the File::open outcome,
lockOk the non-blocking shared-lock attempt, contents the read_to_string
result (none is an I/O error), parseSem the serde parse,
now the epoch-seconds clock, transcript_mtime the get_file_mtime result
for the watched transcript (none is an I/O error). -/
def try_get_cached (cache_exists openOk lockOk : Bool) (contents : Option String)
    (parseSem : String → Option Semaphore) (now : Nat)
    (transcript_mtime : Option Nat) : CacheGetResult :=
  if !cache_exists then .ok none
  else if !openOk then .ok none
  else if !lockOk then .ok none
  else
    match contents with
    | none => .ioError
    | some s =>
      match parseSem s with
      | none => .ok none
      | some sem =>
        match u64_checked_sub now sem.last_update_time with
        | none => .underflowPanic
        | some age =>
          let is_expired := decide (age ≥ 30)
          match transcript_mtime with
          | none => .ioError
          | some m =>
            let is_file_modified := decide (m ≠ sem.transcript_mtime)
            if is_expired || is_file_modified then .ok none
            else .ok (some sem.last_output)

/-- C5: try_get_cached returns nothing when the cache file is absent, when
the shared-lock attempt fails, when the stored record's age is at least 30
seconds, or when the watched file's modification time differs from the
recorded one; otherwise it returns exactly the stored text.  The record is
assumed parseable and not stamped in the future (the future-stamped case
is claim C10). -/
theorem claim_C5_render_cache (openOk lockOk : Bool) (s : String)
    (parseSem : String → Option Semaphore) (sem : Semaphore) (now m : Nat)
    (hparse : parseSem s = some sem) (hclock : sem.last_update_time ≤ now) :
    (try_get_cached false openOk lockOk (some s) parseSem now (some m) = .ok none) ∧
    (try_get_cached true true false (some s) parseSem now (some m) = .ok none) ∧
    (30 ≤ now - sem.last_update_time →
      try_get_cached true true true (some s) parseSem now (some m) = .ok none) ∧
    (m ≠ sem.transcript_mtime →
      try_get_cached true true true (some s) parseSem now (some m) = .ok none) ∧
    (now - sem.last_update_time < 30 → m = sem.transcript_mtime →
      try_get_cached true true true (some s) parseSem now (some m)
        = .ok (some sem.last_output)) := by
  have hnolt : ¬ now < sem.last_update_time := not_lt.mpr hclock
  refine ⟨rfl, rfl, ?_, ?_, ?_⟩
  · intro hexp
    simp [try_get_cached, hparse, u64_checked_sub, hnolt, hexp]
  · intro hmod
    simp [try_get_cached, hparse, u64_checked_sub, hnolt, hmod]
  · intro hfresh hsame
    have hexp : ¬ 30 ≤ now - sem.last_update_time := not_le.mpr hfresh
    simp [try_get_cached, hparse, u64_checked_sub, hnolt, hexp, hsame]

/-- Witness for C5: a record stamped at 100 read at 105 with unchanged
mtime 7 is returned; at 135 it is expired. -/
theorem claim_C5_render_cache_witness :
    (try_get_cached true true true (some "rec")
        (fun _ => some ⟨"d", "out", 100, "t", 7⟩) 105 (some 7)
      = .ok (some "out")) ∧
    (try_get_cached true true true (some "rec")
        (fun _ => some ⟨"d", "out", 100, "t", 7⟩) 135 (some 7)
      = .ok none) :=
  ⟨(claim_C5_render_cache true true "rec" (fun _ => some ⟨"d", "out", 100, "t", 7⟩)
      ⟨"d", "out", 100, "t", 7⟩ 105 7 rfl (by norm_num)).2.2.2.2 (by norm_num) rfl,
   (claim_C5_render_cache true true "rec" (fun _ => some ⟨"d", "out", 100, "t", 7⟩)
      ⟨"d", "out", 100, "t", 7⟩ 135 7 rfl (by norm_num)).2.2.1 (by norm_num)⟩

/-- C10: the age computation of try_get_cached is an unguarded unsigned
64-bit subtraction, so the function completes normally only under the
precondition that the stored last_update_time is at most the current
clock; a record stamped in the future makes the subtraction underflow
instead of being classified fresh or expired. -/
theorem claim_C10_cache_age_underflow (ex openOk lockOk : Bool) (s : String)
    (parseSem : String → Option Semaphore) (sem : Semaphore) (now : Nat)
    (tm : Option Nat) (hparse : parseSem s = some sem) :
    (sem.last_update_time ≤ now →
      try_get_cached ex openOk lockOk (some s) parseSem now tm ≠ .underflowPanic) ∧
    (now < sem.last_update_time →
      try_get_cached true true true (some s) parseSem now tm = .underflowPanic) := by
  constructor
  · intro hclock
    have hnolt : ¬ now < sem.last_update_time := not_lt.mpr hclock
    cases ex with
    | false => simp [try_get_cached]
    | true =>
      cases openOk with
      | false => simp [try_get_cached]
      | true =>
        cases lockOk with
        | false => simp [try_get_cached]
        | true =>
          cases tm with
          | none => simp [try_get_cached, hparse, u64_checked_sub, hnolt]
          | some m =>
            simp [try_get_cached, hparse, u64_checked_sub, hnolt]
            split <;> simp
  · intro hlt
    simp [try_get_cached, hparse, u64_checked_sub, hlt]

/-- Witness for C10: a record stamped at 200 is fine at clock 200 and
underflows at clock 199. -/
theorem claim_C10_cache_age_underflow_witness :
    (try_get_cached true true true (some "rec")
        (fun _ => some ⟨"d", "out", 200, "t", 7⟩) 200 (some 7) ≠ .underflowPanic) ∧
    (try_get_cached true true true (some "rec")
        (fun _ => some ⟨"d", "out", 200, "t", 7⟩) 199 (some 7) = .underflowPanic) :=
  ⟨(claim_C10_cache_age_underflow true true true "rec"
      (fun _ => some ⟨"d", "out", 200, "t", 7⟩) ⟨"d", "out", 200, "t", 7⟩ 200 (some 7)
      rfl).1 (by norm_num),
   (claim_C10_cache_age_underflow true true true "rec"
      (fun _ => some ⟨"d", "out", 200, "t", 7⟩) ⟨"d", "out", 200, "t", 7⟩ 199 (some 7)
      rfl).2 (by norm_num)⟩

/-! ## Pricing-table loader (src/pricing.rs lines 24-67) -/

/-- MAX_AGE_SECONDS (src/pricing.rs line 15). -/
def MAX_AGE_SECONDS : Int := 86400

/-- The cached pricing file (struct PricingCache, src/types.rs lines
130-134); the model table is abstracted to the type mu. -/
structure PricingCacheM (mu : Type) where
  timestamp : Int
  models : mu
deriving DecidableEq, Repr

/-- Outcome of reqwest::blocking::get plus the status check in
load_pricing: okStatus is the arm Ok(response) with a success status,
carrying the result of response.json() (none is a malformed body); every
other case (connection error, non-success status) is errOrBadStatus. -/
inductive FetchOutcome (mu : Type) where
  | okStatus : Option mu → FetchOutcome mu
  | errOrBadStatus : FetchOutcome mu
deriving DecidableEq, Repr

/-- The fetch arm of load_pricing (src/pricing.rs lines 40-66): on a
success status the parsed body is returned (a parse failure propagates via
the ? operator); otherwise the stale cache is re-read and returned, and
the absence of a parseable cache is the fatal bail.  The Bool records that
the network fetch was performed. -/
def load_pricing_fetch {mu : Type} (cached : Option (PricingCacheM mu))
    (fetch : FetchOutcome mu) : Bool × Except Unit mu :=
  match fetch with
  | .okStatus (some models) => (true, .ok models)
  | .okStatus none => (true, .error ())
  | .errOrBadStatus =>
    match cached with
    | some c => (true, .ok c.models)
    | none => (true, .error ())

/-- PricingFetcher::load_pricing (src/pricing.rs lines 24-67).  cacheFile
is the fs::read_to_string result for pricing.json, parsePC the serde parse
of PricingCache, now the epoch-seconds clock, fetch the network outcome.
The Bool of the result is true exactly when the network was consulted
(the cache write of a fetched table has no observable effect here: its
errors are discarded by the source). -/
def load_pricing {mu : Type} (cacheFile : Option String)
    (parsePC : String → Option (PricingCacheM mu)) (now : Int)
    (fetch : FetchOutcome mu) : Bool × Except Unit mu :=
  match cacheFile.bind parsePC with
  | some cached =>
    if now - cached.timestamp < MAX_AGE_SECONDS then (false, .ok cached.models)
    else load_pricing_fetch (cacheFile.bind parsePC) fetch
  | none => load_pricing_fetch (cacheFile.bind parsePC) fetch

/-- Counterexample to C7: with a stale but parseable local cache on disk
(timestamp 0, models 7, read at now 1000000), a success-status response
whose body fails to parse makes load_pricing fail instead of falling back
to the cached table, although a parseable local cache exists. -/
theorem claim_C7_counterexample :
    load_pricing (some "cachefile") (fun _ => some ⟨0, (7 : Nat)⟩) 1000000
        (.okStatus none) = (true, .error ()) ∧
    (fun _ : String => some (⟨0, (7 : Nat)⟩ : PricingCacheM Nat)) "cachefile"
        = some ⟨0, 7⟩ ∧
    (1000000 : Int) - 0 ≥ MAX_AGE_SECONDS := by
  refine ⟨rfl, rfl, by norm_num [MAX_AGE_SECONDS]⟩

/-- C7 as amended: a fresh (younger than 24h) parseable cache is returned
without any fetch; otherwise the fetch is attempted, a network error or
non-success status falls back to the parseable local cache regardless of
age and fails only when no parseable cache exists, a success-status
response with parseable body is returned, and a success-status response
with malformed body is a hard error without cache fallback. -/
theorem claim_C7_load_pricing {mu : Type} (cacheFile : Option String)
    (parsePC : String → Option (PricingCacheM mu)) (now : Int)
    (fetch : FetchOutcome mu) (c : PricingCacheM mu) (m : mu) :
    (cacheFile.bind parsePC = some c → now - c.timestamp < MAX_AGE_SECONDS →
      load_pricing cacheFile parsePC now fetch = (false, .ok c.models)) ∧
    (cacheFile.bind parsePC = some c → MAX_AGE_SECONDS ≤ now - c.timestamp →
      (load_pricing cacheFile parsePC now fetch).1 = true) ∧
    (cacheFile.bind parsePC = none →
      (load_pricing cacheFile parsePC now fetch).1 = true) ∧
    (cacheFile.bind parsePC = some c → MAX_AGE_SECONDS ≤ now - c.timestamp →
      load_pricing cacheFile parsePC now .errOrBadStatus = (true, .ok c.models)) ∧
    (cacheFile.bind parsePC = none →
      load_pricing cacheFile parsePC now .errOrBadStatus = (true, .error ())) ∧
    (cacheFile.bind parsePC = some c → MAX_AGE_SECONDS ≤ now - c.timestamp →
      load_pricing cacheFile parsePC now (.okStatus (some m)) = (true, .ok m)) ∧
    (cacheFile.bind parsePC = some c → MAX_AGE_SECONDS ≤ now - c.timestamp →
      load_pricing cacheFile parsePC now (.okStatus none) = (true, .error ())) := by
  have hstale : ∀ h : cacheFile.bind parsePC = some c,
      MAX_AGE_SECONDS ≤ now - c.timestamp →
      ∀ f : FetchOutcome mu,
        load_pricing cacheFile parsePC now f = load_pricing_fetch (some c) f := by
    intro h hage f
    have : ¬ now - c.timestamp < MAX_AGE_SECONDS := not_lt.mpr hage
    simp [load_pricing, h, this]
  refine ⟨?_, ?_, ?_, ?_, ?_, ?_, ?_⟩
  · intro h hfresh
    simp [load_pricing, h, hfresh]
  · intro h hage
    rw [hstale h hage]
    cases fetch with
    | okStatus body => cases body <;> rfl
    | errOrBadStatus => rfl
  · intro h
    simp only [load_pricing, h]
    cases fetch with
    | okStatus body => cases body <;> rfl
    | errOrBadStatus => rfl
  · intro h hage
    rw [hstale h hage]
    rfl
  · intro h
    simp only [load_pricing, h]
    rfl
  · intro h hage
    rw [hstale h hage]
    rfl
  · intro h hage
    rw [hstale h hage]
    rfl

/-- Witness for C7 at concrete inputs: a stale cache (timestamp 0, models
5, clock 90000) is served on a failed fetch. -/
theorem claim_C7_load_pricing_witness :
    load_pricing (some "f") (fun _ => some ⟨0, (5 : Nat)⟩) 90000 .errOrBadStatus
      = (true, .ok 5) :=
  (claim_C7_load_pricing (some "f") (fun _ => some ⟨0, (5 : Nat)⟩) 90000
      .errOrBadStatus ⟨0, 5⟩ 5).2.2.2.1 rfl (by norm_num [MAX_AGE_SECONDS])

/-! ## Remote-quota fetch (src/api_usage.rs lines 66-130) -/

/-- Outcome of OpenOptions::open plus try_lock_exclusive in
fetch_usage_with_lock: the exclusive lock is acquired, the attempt fails
with WouldBlock (another process holds it), or some other lock error. -/
inductive LockOutcome where
  | acquired
  | wouldBlock
  | otherErr
deriving DecidableEq, Repr

/-- fetch_or_use_cache (src/api_usage.rs lines 105-130).  fresh is the
mtime age test age < CACHE_TTL_SECS (an unavailable mtime elapsed() counts
as stale, as the source's unwrap_or does); cacheRead is what
read_cache_from_file would yield (error covers an empty or unparseable
file); fetchRes the fetch_api_response outcome; writeOk the
serialize-write-rename sequence of the atomic cache update, whose failure
propagates via the ? operator.  alpha stands for the parsed usage
snapshot. -/
def fetch_or_use_cache {alpha : Type} (fresh : Bool) (cacheRead : Except Unit alpha)
    (fetchRes : Option alpha) (writeOk : Bool) : Except Unit alpha :=
  match fresh, cacheRead with
  | true, .ok d => .ok d
  | _, _ =>
    match fetchRes with
    | none => .error ()
    | some r => if writeOk then .ok r else .error ()

/-- fetch_usage_with_lock (src/api_usage.rs lines 76-103).  openOk is the
open-or-create of the cache file; under contention the process takes a
blocking shared lock and returns whatever read_cache_from_file then
yields (cacheReadAfterWait). -/
def fetch_usage_with_lock {alpha : Type} (openOk : Bool) (lock : LockOutcome)
    (fresh : Bool) (cacheRead : Except Unit alpha) (fetchRes : Option alpha)
    (writeOk : Bool) (cacheReadAfterWait : Except Unit alpha) : Except Unit alpha :=
  if !openOk then .error ()
  else
    match lock with
    | .acquired => fetch_or_use_cache fresh cacheRead fetchRes writeOk
    | .wouldBlock => cacheReadAfterWait
    | .otherErr => .error ()

/-- fetch_usage (src/api_usage.rs lines 66-74): every error of
fetch_usage_with_lock becomes None. -/
def fetch_usage {alpha : Type} (openOk : Bool) (lock : LockOutcome) (fresh : Bool)
    (cacheRead : Except Unit alpha) (fetchRes : Option alpha) (writeOk : Bool)
    (cacheReadAfterWait : Except Unit alpha) : Option alpha :=
  match fetch_usage_with_lock openOk lock fresh cacheRead fetchRes writeOk
      cacheReadAfterWait with
  | .ok data => some data
  | .error _ => none

/-- Counterexample to C8: holding the exclusive lock with a stale cache
(fresh = false) whose content is a perfectly readable cached value 42, a
failed fetch yields None - the function does not fall back to the stale
cached value, so None is returned even though a cached value exists. -/
theorem claim_C8_counterexample :
    fetch_usage true .acquired false (.ok (42 : Nat)) none true (.ok 0) = none ∧
    (Except.ok (42 : Nat) : Except Unit Nat) ≠ .error () := by
  exact ⟨rfl, by simp⟩

/-- C8 as amended: no failure is propagated as a hard failure - fetch_usage
always returns an Option, with every error mapped to None; a fresh
readable cache is returned, a successful fetch (with successful cache
write) is returned, a failed fetch with the exclusive lock held returns
None even when the stale cache is readable, and under contention the
post-wait cache read decides the result. -/
theorem claim_C8_fetch_usage {alpha : Type} (openOk : Bool) (lock : LockOutcome)
    (fresh : Bool) (cacheRead : Except Unit alpha) (fetchRes : Option alpha)
    (writeOk : Bool) (cacheWait : Except Unit alpha) (d r : alpha) :
    (fetch_usage openOk lock fresh cacheRead fetchRes writeOk cacheWait
        = match fetch_usage_with_lock openOk lock fresh cacheRead fetchRes writeOk
            cacheWait with
          | .ok x => some x
          | .error _ => none) ∧
    (fetch_usage true .acquired true (.ok d) fetchRes writeOk cacheWait = some d) ∧
    (fetch_usage true .acquired false cacheRead (some r) true cacheWait = some r) ∧
    (fresh = false ∨ cacheRead = .error () →
      fetch_usage true .acquired fresh cacheRead none writeOk cacheWait = none) ∧
    (fetch_usage true .wouldBlock fresh cacheRead fetchRes writeOk (.ok d) = some d) ∧
    (fetch_usage true .wouldBlock fresh cacheRead fetchRes writeOk (.error ()) = none) := by
  refine ⟨rfl, rfl, ?_, ?_, rfl, rfl⟩
  · cases fresh with
    | false => rfl
    | true =>
      cases cacheRead with
      | ok x => rfl
      | error e => rfl
  · rintro (hf | hc)
    · subst hf
      cases cacheRead <;> rfl
    · subst hc
      cases fresh <;> rfl

/-- Witness for C8 at concrete inputs: a stale unreadable cache with a
failed fetch yields None. -/
theorem claim_C8_fetch_usage_witness :
    fetch_usage true .acquired false (.error ()) none true (.ok (3 : Nat)) = none :=
  (claim_C8_fetch_usage true .acquired false (.error ()) none true (.ok (3 : Nat))
      3 3).2.2.2.1 (Or.inl rfl)

/-! ## Usage ingestion and dedup scan (src/blocks.rs lines 141-209)

The filesystem the scan walks is passed as data: a list of roots
(claude_paths), each root the result of fs::read_dir (none when the root
is unreadable), each project directory carrying its own read_dir result,
each file its extension flag, its mtime chain outcome and its content
(none when File::open fails; a line of none is a failed read).  Individual
DirEntry errors of an iterator are subsumed into the none of that
read_dir result, which reaches the same ? operator. -/

/-- One candidate session file inside a project directory. -/
structure FsFile where
  is_jsonl : Bool
  mtime : Option Int
  content : Option (List (Option String))

/-- One entry of a root directory. -/
structure FsDir where
  is_dir : Bool
  entries : Option (List FsFile)

/-- The mutable scan state of find_active_block: all_entries paired with
processed_hashes (the HashSet modelled as the list of inserted keys). -/
abbrev DedupState := List UsageData × List String

/-- The dedup key built at src/blocks.rs lines 186-190:
message id ++ ":" ++ request id when both are present. -/
def entry_hash (e : UsageData) : Option String :=
  match e.message.id, e.request_id with
  | some msgId, some reqId => some (msgId ++ ":" ++ reqId)
  | _, _ => none

/-- The per-entry dedup step (src/blocks.rs lines 185-198): a keyed entry
already in the set is dropped, otherwise the entry is appended and its
key recorded; keyless entries are always appended. -/
def dedup_insert (st : DedupState) (entry : UsageData) : DedupState :=
  match entry_hash entry with
  | some h => if h ∈ st.2 then st else (st.1 ++ [entry], h :: st.2)
  | none => (st.1 ++ [entry], st.2)

/-- The blank-line check line.trim().is_empty() of src/blocks.rs line 181:
a line trims to empty exactly when every character is whitespace (the
iterator form is used because String.trim does not reduce in the kernel). -/
def is_blank (l : String) : Bool := l.data.all (fun c => c.isWhitespace)

/-- The line loop (src/blocks.rs lines 179-200): a failed line read
propagates as an error, a blank line is skipped, a line that does not
parse as a usage record is silently dropped, a parsed line goes through
the dedup step. -/
def process_lines (parseLine : String → Option UsageData) :
    List (Option String) → DedupState → Except Unit DedupState
  | [], st => .ok st
  | none :: _, _ => .error ()
  | some l :: rest, st =>
    if is_blank l then process_lines parseLine rest st
    else
      match parseLine l with
      | none => process_lines parseLine rest st
      | some entry => process_lines parseLine rest (dedup_insert st entry)

/-- File selection (src/blocks.rs lines 160-173): the extension must be
jsonl, and a file whose whole mtime chain succeeds with a value before the
cutoff is skipped (any failure in the chain keeps the file). -/
def file_selected (cutoff : Int) (f : FsFile) : Bool :=
  f.is_jsonl &&
    !(match f.mtime with
      | some m => decide (m < cutoff)
      | none => false)

/-- Processing of a single candidate file (src/blocks.rs lines 158-200):
skipped files leave the state, File::open failure propagates, otherwise
the line loop runs. -/
def process_file (parseLine : String → Option UsageData) (cutoff : Int) (f : FsFile)
    (st : DedupState) : Except Unit DedupState :=
  if !(file_selected cutoff f) then .ok st
  else
    match f.content with
    | none => .error ()
    | some ls => process_lines parseLine ls st

/-- Sequential fold of a per-item processor over a list, stopping at the
first error: the shape shared by the file, directory and root loops. -/
def proc_fold {beta : Type} (proc : beta → DedupState → Except Unit DedupState) :
    List beta → DedupState → Except Unit DedupState
  | [], st => .ok st
  | x :: rest, st =>
    match proc x st with
    | .error e => .error e
    | .ok st2 => proc_fold proc rest st2

/-- The session-file loop of one project directory. -/
def process_files (parseLine : String → Option UsageData) (cutoff : Int)
    (files : List FsFile) (st : DedupState) : Except Unit DedupState :=
  proc_fold (process_file parseLine cutoff) files st

/-- Processing of one entry of a root (src/blocks.rs lines 152-201):
non-directories are skipped, an unreadable project directory propagates. -/
def process_dir (parseLine : String → Option UsageData) (cutoff : Int) (d : FsDir)
    (st : DedupState) : Except Unit DedupState :=
  if !d.is_dir then .ok st
  else
    match d.entries with
    | none => .error ()
    | some fs => process_files parseLine cutoff fs st

/-- The project-directory loop of one root. -/
def process_dirs (parseLine : String → Option UsageData) (cutoff : Int)
    (dirs : List FsDir) (st : DedupState) : Except Unit DedupState :=
  proc_fold (process_dir parseLine cutoff) dirs st

/-- Processing of one root (src/blocks.rs lines 151-152): an unreadable
root directory propagates through the ? on fs::read_dir. -/
def process_root (parseLine : String → Option UsageData) (cutoff : Int)
    (root : Option (List FsDir)) (st : DedupState) : Except Unit DedupState :=
  match root with
  | none => .error ()
  | some ds => process_dirs parseLine cutoff ds st

/-- The base-path loop of find_active_block. -/
def process_roots (parseLine : String → Option UsageData) (cutoff : Int)
    (roots : List (Option (List FsDir))) (st : DedupState) : Except Unit DedupState :=
  proc_fold (process_root parseLine cutoff) roots st

/-- Byte-order comparison of timestamps: Rust compares the raw timestamp
strings (String::cmp), which on UTF-8 agrees with this scalar-value
lexicographic comparison of the character lists. -/
def le_chars : List Char → List Char → Bool
  | [], _ => true
  | _ :: _, [] => false
  | a :: as, b :: bs => if a < b then true else if b < a then false else le_chars as bs

/-- Stable insertion of an entry into an already sorted run. -/
def insert_by_timestamp (e : UsageData) : List UsageData → List UsageData
  | [] => [e]
  | x :: xs =>
    if le_chars e.timestamp.data x.timestamp.data then e :: x :: xs
    else x :: insert_by_timestamp e xs

/-- The stable sort by timestamp of src/blocks.rs line 206 (Vec::sort_by
with String::cmp is a stable sort; a stable sort under a total preorder is
a unique function, here realized by insertion sort). -/
def sort_by_timestamp : List UsageData → List UsageData
  | [] => []
  | x :: xs => insert_by_timestamp x (sort_by_timestamp xs)

/-- find_active_block (src/blocks.rs lines 141-233) end to end: scan,
sort, group into blocks, then select the active block. -/
def find_active_block (parseLine : String → Option UsageData)
    (parseTs : String → Option Int) (cost : UsageData → ℚ) (cutoff now : Int)
    (roots : List (Option (List FsDir))) : Except Unit Block :=
  match process_roots parseLine cutoff roots ([], []) with
  | .error e => .error e
  | .ok st =>
    match group_into_blocks parseTs cost now (sort_by_timestamp st.1) with
    | .error e => .error e
    | .ok blocks => .ok (select_active_block now blocks)

/-! ### The scan as a function of the flattened line stream

The following definitions express, in the spec's terms, the stream of
lines the scan visits: the selected files of the visited directories,
concatenated in scan order, with none standing for any I/O failure.  They
exist to characterize process_roots; they are not part of the source. -/

/-- Sequencing of the line reads of the stream: none if any read fails. -/
def seq_lines : List (Option String) → Option (List String)
  | [] => some []
  | none :: _ => none
  | some l :: rest => (seq_lines rest).map (fun ls => l :: ls)

/-- The line stream contributed by one candidate file. -/
def file_stream (cutoff : Int) (f : FsFile) : Option (List (Option String)) :=
  if file_selected cutoff f then f.content else some []

/-- Concatenation of the streams of a list of items. -/
def stream_fold {beta : Type} (stream : beta → Option (List (Option String))) :
    List beta → Option (List (Option String))
  | [] => some []
  | x :: rest =>
    match stream x, stream_fold stream rest with
    | some a, some b => some (a ++ b)
    | _, _ => none

/-- The line stream contributed by one root entry. -/
def dir_stream (cutoff : Int) (d : FsDir) : Option (List (Option String)) :=
  if !d.is_dir then some []
  else
    match d.entries with
    | none => none
    | some fs => stream_fold (file_stream cutoff) fs

/-- The line stream contributed by one root. -/
def root_stream (cutoff : Int) (root : Option (List FsDir)) :
    Option (List (Option String)) :=
  match root with
  | none => none
  | some ds => stream_fold (dir_stream cutoff) ds

/-- The fully sequenced line stream of the whole scan: some lines exactly
when no I/O failure occurs anywhere among the visited structure. -/
def scan_stream (cutoff : Int) (roots : List (Option (List FsDir))) :
    Option (List String) :=
  (stream_fold (root_stream cutoff) roots).bind seq_lines

/-- The pure residue of the line loop on successfully read lines. -/
def dedup_lines (parseLine : String → Option UsageData) :
    List String → DedupState → DedupState
  | [], st => st
  | l :: rest, st =>
    if is_blank l then dedup_lines parseLine rest st
    else
      match parseLine l with
      | none => dedup_lines parseLine rest st
      | some e => dedup_lines parseLine rest (dedup_insert st e)

/-- The records the scan parses out of a line stream, in scan order. -/
def parsed_lines (parseLine : String → Option UsageData) (lines : List String) :
    List UsageData :=
  lines.filterMap (fun l => if is_blank l then none else parseLine l)

/-- The dedup fold over an already parsed entry stream. -/
def dedup_entries : List UsageData → DedupState → DedupState
  | [], st => st
  | e :: rest, st => dedup_entries rest (dedup_insert st e)

theorem seq_lines_append (a b : List (Option String)) :
    seq_lines (a ++ b)
      = match seq_lines a, seq_lines b with
        | some x, some y => some (x ++ y)
        | _, _ => none := by
  induction a with
  | nil =>
    cases hb : seq_lines b <;> simp [seq_lines, hb]
  | cons o rest ih =>
    cases o with
    | none => simp [seq_lines]
    | some l =>
      have h1 : seq_lines ((some l :: rest) ++ b)
          = (seq_lines (rest ++ b)).map (fun ls => l :: ls) := rfl
      have h2 : seq_lines (some l :: rest)
          = (seq_lines rest).map (fun ls => l :: ls) := rfl
      rw [h1, h2, ih]
      cases hr : seq_lines rest <;> cases hb : seq_lines b <;> simp

theorem dedup_lines_append (parseLine : String → Option UsageData)
    (a b : List String) (st : DedupState) :
    dedup_lines parseLine (a ++ b) st = dedup_lines parseLine b (dedup_lines parseLine a st) := by
  induction a generalizing st with
  | nil => rfl
  | cons l rest ih =>
    by_cases he : is_blank l
    · simp [dedup_lines, he, ih]
    · cases hp : parseLine l <;> simp [dedup_lines, he, hp, ih]

theorem process_lines_eq (parseLine : String → Option UsageData)
    (ls : List (Option String)) (st : DedupState) :
    process_lines parseLine ls st
      = match seq_lines ls with
        | none => .error ()
        | some l => .ok (dedup_lines parseLine l st) := by
  induction ls generalizing st with
  | nil => rfl
  | cons o rest ih =>
    cases o with
    | none => rfl
    | some l =>
      by_cases he : is_blank l
      · have hl : process_lines parseLine (some l :: rest) st
            = process_lines parseLine rest st := by
          rw [process_lines, if_pos he]
        rw [hl, ih]
        cases hr : seq_lines rest <;> simp [seq_lines, hr, dedup_lines, he]
      · cases hp : parseLine l with
        | none =>
          have hl : process_lines parseLine (some l :: rest) st
              = process_lines parseLine rest st := by
            rw [process_lines, if_neg he, hp]
          rw [hl, ih]
          cases hr : seq_lines rest <;> simp [seq_lines, hr, dedup_lines, he, hp]
        | some e =>
          have hl : process_lines parseLine (some l :: rest) st
              = process_lines parseLine rest (dedup_insert st e) := by
            rw [process_lines, if_neg he, hp]
          rw [hl, ih]
          cases hr : seq_lines rest <;> simp [seq_lines, hr, dedup_lines, he, hp]

theorem proc_fold_stream {beta : Type} (parseLine : String → Option UsageData)
    (proc : beta → DedupState → Except Unit DedupState)
    (stream : beta → Option (List (Option String)))
    (hpt : ∀ b st, proc b st
      = match (stream b).bind seq_lines with
        | none => .error ()
        | some l => .ok (dedup_lines parseLine l st))
    (xs : List beta) (st : DedupState) :
    proc_fold proc xs st
      = match (stream_fold stream xs).bind seq_lines with
        | none => .error ()
        | some l => .ok (dedup_lines parseLine l st) := by
  induction xs generalizing st with
  | nil => rfl
  | cons x rest ih =>
    cases hx : stream x with
    | none =>
      have hl : proc_fold proc (x :: rest) st = .error () := by
        rw [proc_fold, hpt, hx] <;> rfl
      have hs : stream_fold stream (x :: rest) = none := by
        cases hr : stream_fold stream rest <;> (rw [stream_fold, hx, hr] <;> rfl)
      rw [hl, hs] <;> rfl
    | some a =>
      have hba : (some a).bind seq_lines = seq_lines a := rfl
      cases ha : seq_lines a with
      | none =>
        have hl : proc_fold proc (x :: rest) st = .error () := by
          rw [proc_fold, hpt, hx, hba, ha] <;> rfl
        cases hr : stream_fold stream rest with
        | none =>
          have hs : stream_fold stream (x :: rest) = none := by
            rw [stream_fold, hx, hr] <;> rfl
          rw [hl, hs] <;> rfl
        | some b =>
          have hs : stream_fold stream (x :: rest) = some (a ++ b) := by
            rw [stream_fold, hx, hr] <;> rfl
          have hsl : seq_lines (a ++ b) = none := by
            rw [seq_lines_append, ha]
          rw [hl, hs]
          have hb2 : (some (a ++ b)).bind seq_lines = seq_lines (a ++ b) := rfl
          rw [hb2, hsl] <;> rfl
      | some l =>
        have hl : proc_fold proc (x :: rest) st
            = proc_fold proc rest (dedup_lines parseLine l st) := by
          rw [proc_fold, hpt, hx, hba, ha] <;> rfl
        rw [hl, ih]
        cases hr : stream_fold stream rest with
        | none =>
          have hs : stream_fold stream (x :: rest) = none := by
            rw [stream_fold, hx, hr] <;> rfl
          rw [hs] <;> rfl
        | some b =>
          have hs : stream_fold stream (x :: rest) = some (a ++ b) := by
            rw [stream_fold, hx, hr] <;> rfl
          have hb2 : (some (a ++ b)).bind seq_lines = seq_lines (a ++ b) := rfl
          have hb3 : (some b).bind seq_lines = seq_lines b := rfl
          rw [hs, hb2, seq_lines_append, ha, hb3]
          cases hb : seq_lines b with
          | none => rfl
          | some y => simp [dedup_lines_append]

theorem process_file_stream (parseLine : String → Option UsageData) (cutoff : Int)
    (f : FsFile) (st : DedupState) :
    process_file parseLine cutoff f st
      = match (file_stream cutoff f).bind seq_lines with
        | none => .error ()
        | some l => .ok (dedup_lines parseLine l st) := by
  by_cases hsel : file_selected cutoff f = true
  · cases hc : f.content with
    | none => simp [process_file, hsel, file_stream, hc]
    | some ls => simp [process_file, hsel, file_stream, hc, process_lines_eq]
  · have hsel2 : file_selected cutoff f = false := by simpa using hsel
    simp [process_file, hsel2, file_stream, seq_lines, dedup_lines]

theorem process_dir_stream (parseLine : String → Option UsageData) (cutoff : Int)
    (d : FsDir) (st : DedupState) :
    process_dir parseLine cutoff d st
      = match (dir_stream cutoff d).bind seq_lines with
        | none => .error ()
        | some l => .ok (dedup_lines parseLine l st) := by
  by_cases hd : d.is_dir = true
  · cases he : d.entries with
    | none => simp [process_dir, hd, dir_stream, he]
    | some fs =>
      have h1 : process_dir parseLine cutoff d st = process_files parseLine cutoff fs st := by
        rw [process_dir, hd, he] <;> rfl
      have h2 : dir_stream cutoff d = stream_fold (file_stream cutoff) fs := by
        rw [dir_stream, hd, he] <;> rfl
      rw [h1, h2]
      exact proc_fold_stream parseLine _ _ (process_file_stream parseLine cutoff) fs st
  · have hd2 : d.is_dir = false := by simpa using hd
    simp [process_dir, hd2, dir_stream, seq_lines, dedup_lines]

theorem process_root_stream (parseLine : String → Option UsageData) (cutoff : Int)
    (root : Option (List FsDir)) (st : DedupState) :
    process_root parseLine cutoff root st
      = match (root_stream cutoff root).bind seq_lines with
        | none => .error ()
        | some l => .ok (dedup_lines parseLine l st) := by
  cases root with
  | none => rfl
  | some ds =>
    simp only [process_root, root_stream]
    exact proc_fold_stream parseLine _ _ (process_dir_stream parseLine cutoff) ds st

/-- The whole collection phase of find_active_block is the pure dedup fold
over the sequenced line stream, failing exactly when the stream does. -/
theorem process_roots_eq (parseLine : String → Option UsageData) (cutoff : Int)
    (roots : List (Option (List FsDir))) (st : DedupState) :
    process_roots parseLine cutoff roots st
      = match scan_stream cutoff roots with
        | none => .error ()
        | some l => .ok (dedup_lines parseLine l st) := by
  unfold process_roots scan_stream
  exact proc_fold_stream parseLine _ _ (process_root_stream parseLine cutoff) roots st

theorem dedup_lines_eq_entries (parseLine : String → Option UsageData)
    (lines : List String) (st : DedupState) :
    dedup_lines parseLine lines st = dedup_entries (parsed_lines parseLine lines) st := by
  induction lines generalizing st with
  | nil => rfl
  | cons l rest ih =>
    by_cases he : is_blank l
    · have hl : dedup_lines parseLine (l :: rest) st = dedup_lines parseLine rest st := by
        rw [dedup_lines, if_pos he]
      rw [hl, ih]
      simp [parsed_lines, List.filterMap_cons, he]
    · cases hp : parseLine l with
      | none =>
        have hl : dedup_lines parseLine (l :: rest) st = dedup_lines parseLine rest st := by
          rw [dedup_lines, if_neg he, hp]
        rw [hl, ih]
        simp [parsed_lines, List.filterMap_cons, he, hp]
      | some e =>
        have hl : dedup_lines parseLine (l :: rest) st
            = dedup_lines parseLine rest (dedup_insert st e) := by
          rw [dedup_lines, if_neg he, hp]
        rw [hl, ih]
        have hparsed : parsed_lines parseLine (l :: rest)
            = e :: parsed_lines parseLine rest := by
          simp [parsed_lines, List.filterMap_cons, he, hp]
        rw [hparsed, dedup_entries]

/-- Keyless entries always survive the dedup fold, in order and with
multiplicity. -/
theorem dedup_entries_keyless (es : List UsageData) (acc : List UsageData)
    (seen : List String) :
    (dedup_entries es (acc, seen)).1.filter (fun e => (entry_hash e).isNone)
      = acc.filter (fun e => (entry_hash e).isNone)
        ++ es.filter (fun e => (entry_hash e).isNone) := by
  induction es generalizing acc seen with
  | nil => simp [dedup_entries]
  | cons e rest ih =>
    cases hh : entry_hash e with
    | none =>
      have hi : dedup_insert (acc, seen) e = (acc ++ [e], seen) := by
        simp [dedup_insert, hh]
      rw [dedup_entries, hi, ih]
      simp [List.filter_append, List.filter_cons, hh]
    | some h2 =>
      by_cases hmem : h2 ∈ seen
      · have hi : dedup_insert (acc, seen) e = (acc, seen) := by
          simp [dedup_insert, hh, hmem]
        rw [dedup_entries, hi, ih]
        simp [List.filter_cons, hh]
      · have hi : dedup_insert (acc, seen) e = (acc ++ [e], h2 :: seen) := by
          simp [dedup_insert, hh, hmem]
        rw [dedup_entries, hi, ih]
        simp [List.filter_append, List.filter_cons, hh]

/-- Among entries carrying a given dedup key, exactly the key's first
occurrence (none, when the key was pre-seeded into the set) survives. -/
theorem dedup_entries_hash (es : List UsageData) (acc : List UsageData)
    (seen : List String) (h : String) :
    (h ∈ seen →
      (dedup_entries es (acc, seen)).1.filter (fun e => decide (entry_hash e = some h))
        = acc.filter (fun e => decide (entry_hash e = some h))) ∧
    (h ∉ seen →
      (dedup_entries es (acc, seen)).1.filter (fun e => decide (entry_hash e = some h))
        = acc.filter (fun e => decide (entry_hash e = some h))
          ++ (es.find? (fun e => decide (entry_hash e = some h))).toList) := by
  induction es generalizing acc seen with
  | nil => constructor <;> intro _ <;> simp [dedup_entries]
  | cons e rest ih =>
    cases hh : entry_hash e with
    | none =>
      have hi : dedup_insert (acc, seen) e = (acc ++ [e], seen) := by
        simp [dedup_insert, hh]
      constructor
      · intro hmem
        rw [dedup_entries, hi, (ih _ _).1 hmem]
        simp [List.filter_append, List.filter_cons, hh]
      · intro hmem
        rw [dedup_entries, hi, (ih _ _).2 hmem]
        simp [List.filter_append, List.filter_cons, List.find?_cons, hh]
    | some h2 =>
      by_cases hmem2 : h2 ∈ seen
      · have hi : dedup_insert (acc, seen) e = (acc, seen) := by
          simp [dedup_insert, hh, hmem2]
        constructor
        · intro hmem
          rw [dedup_entries, hi, (ih _ _).1 hmem]
        · intro hmem
          have hne : h2 ≠ h := fun heq => hmem (heq ▸ hmem2)
          rw [dedup_entries, hi, (ih _ _).2 hmem]
          simp [List.find?_cons, hh, hne]
      · have hi : dedup_insert (acc, seen) e = (acc ++ [e], h2 :: seen) := by
          simp [dedup_insert, hh, hmem2]
        constructor
        · intro hmem
          have hmem3 : h ∈ h2 :: seen := List.mem_cons_of_mem _ hmem
          have hne : h2 ≠ h := fun heq => hmem2 (heq ▸ hmem)
          rw [dedup_entries, hi, (ih _ _).1 hmem3]
          simp [List.filter_append, List.filter_cons, hh, hne]
        · intro hmem
          by_cases heq : h2 = h
          · subst heq
            have hmem3 : h2 ∈ h2 :: seen := List.mem_cons_self _ _
            rw [dedup_entries, hi, (ih _ _).1 hmem3]
            simp [List.filter_append, List.filter_cons, List.find?_cons, hh]
          · have hmem3 : h ∉ h2 :: seen := by
              intro hc
              rcases List.mem_cons.mp hc with h1 | h1
              · exact heq h1.symm
              · exact hmem h1
            rw [dedup_entries, hi, (ih _ _).2 hmem3]
            simp [List.filter_append, List.filter_cons, List.find?_cons, hh, heq]

/-- Counterexample to C3: the dedup key is the joined string
message id ++ ":" ++ request id, so the two distinct identity pairs
("a:b", "c") and ("a", "b:c") collide.  Scanning two files whose single
lines parse to these two entries, the survivor set is only the first
entry: the first (and only) occurrence of the pair ("a", "b:c") does not
survive into the aggregator's input even though both of its identity
fields are present and no earlier event has that pair. -/
theorem claim_C3_counterexample :
    (process_roots
        (fun l => if l = "l1"
          then some ⟨"t1", ⟨none, some "a:b", ⟨0, 0, 0, 0⟩⟩, some "c"⟩
          else if l = "l2"
            then some ⟨"t2", ⟨none, some "a", ⟨0, 0, 0, 0⟩⟩, some "b:c"⟩
            else none)
        0
        [some [⟨true, some [⟨true, none, some [some "l1"]⟩,
                            ⟨true, none, some [some "l2"]⟩]⟩]]
        ([], [])
      = .ok ([⟨"t1", ⟨none, some "a:b", ⟨0, 0, 0, 0⟩⟩, some "c"⟩], ["a:b:c"])) ∧
    ([(⟨"t1", ⟨none, some "a:b", ⟨0, 0, 0, 0⟩⟩, some "c"⟩ : UsageData),
      ⟨"t2", ⟨none, some "a", ⟨0, 0, 0, 0⟩⟩, some "b:c"⟩].filter
        (fun e => decide (e.message.id = some "a") && decide (e.request_id = some "b:c"))
      = [⟨"t2", ⟨none, some "a", ⟨0, 0, 0, 0⟩⟩, some "b:c"⟩]) ∧
    ([(⟨"t1", ⟨none, some "a:b", ⟨0, 0, 0, 0⟩⟩, some "c"⟩ : UsageData)].filter
        (fun e => decide (e.message.id = some "a") && decide (e.request_id = some "b:c"))
      = []) := by
  refine ⟨rfl, by decide, by decide⟩

/-- C3 as amended: in any scan without I/O failure (line stream lines),
the collected entry list is the global dedup fold over the whole stream
(one set across all files); every event missing an identity field
survives, in order and with multiplicity; and for each joined key
message id ++ ":" ++ request id exactly the key's first occurrence in scan
order survives - distinct identity pairs whose joined keys collide (a
message id or request id containing a colon) are deduplicated as one key,
so the first occurrence of a pair survives only if no earlier event shares
its joined key. -/
theorem claim_C3_dedup (parseLine : String → Option UsageData) (cutoff : Int)
    (roots : List (Option (List FsDir))) (lines : List String) (h : String)
    (hs : scan_stream cutoff roots = some lines) :
    (process_roots parseLine cutoff roots ([], [])
      = .ok (dedup_lines parseLine lines ([], []))) ∧
    ((dedup_lines parseLine lines ([], [])).1.filter (fun e => (entry_hash e).isNone)
      = (parsed_lines parseLine lines).filter (fun e => (entry_hash e).isNone)) ∧
    ((dedup_lines parseLine lines ([], [])).1.filter
        (fun e => decide (entry_hash e = some h))
      = ((parsed_lines parseLine lines).find?
          (fun e => decide (entry_hash e = some h))).toList) := by
  refine ⟨?_, ?_, ?_⟩
  · rw [process_roots_eq, hs]
  · rw [dedup_lines_eq_entries]
    have hk := dedup_entries_keyless (parsed_lines parseLine lines) [] []
    simpa using hk
  · rw [dedup_lines_eq_entries]
    have hh := (dedup_entries_hash (parsed_lines parseLine lines) [] [] h).2 (by simp)
    simpa using hh

/-- Witness for C3: one root, one directory, one file with a duplicated
line; the scan stream is defined, the collected list keeps only the first
copy. -/
theorem claim_C3_dedup_witness :
    process_roots
        (fun l => if l = "dup"
          then some ⟨"t", ⟨none, some "m", ⟨1, 2, 0, 0⟩⟩, some "r"⟩ else none)
        0 [some [⟨true, some [⟨true, none, some [some "dup", some "dup"]⟩]⟩]]
        ([], [])
      = .ok (dedup_lines
          (fun l => if l = "dup"
            then some ⟨"t", ⟨none, some "m", ⟨1, 2, 0, 0⟩⟩, some "r"⟩ else none)
          ["dup", "dup"] ([], [])) :=
  (claim_C3_dedup
      (fun l => if l = "dup"
        then some ⟨"t", ⟨none, some "m", ⟨1, 2, 0, 0⟩⟩, some "r"⟩ else none)
      0 [some [⟨true, some [⟨true, none, some [some "dup", some "dup"]⟩]⟩]]
      ["dup", "dup"] "m:r" (by decide)).1

/-- Every entry reaching group_into_blocks has its timestamp parsed, so
one unparseable timestamp among the entries fails the whole grouping. -/
theorem group_blocks_go_error_of_bad_ts (parseTs : String → Option Int)
    (cost : UsageData → ℚ) (now : Int) :
    ∀ (es : List UsageData) (curStart : Option Int) (curEntries : List UsageData)
      (blocks : List Block),
      (∃ e ∈ es, parseTs e.timestamp = none) →
      group_blocks_go parseTs cost now es curStart curEntries blocks = .error () := by
  intro es
  induction es with
  | nil =>
    intro _ _ _ h
    simp at h
  | cons e rest ih =>
    intro curStart curEntries blocks h
    cases hp : parseTs e.timestamp with
    | none =>
      cases curStart <;> simp [group_blocks_go, hp]
    | some t =>
      have hrest : ∃ e2 ∈ rest, parseTs e2.timestamp = none := by
        rcases h with ⟨e2, hmem, hpe⟩
        rcases List.mem_cons.mp hmem with h1 | h1
        · subst h1
          rw [hp] at hpe
          exact absurd hpe (by simp)
        · exact ⟨e2, h1, hpe⟩
      cases curStart with
      | none =>
        have hl : group_blocks_go parseTs cost now (e :: rest) none curEntries blocks
            = group_blocks_go parseTs cost now rest (some (floor_to_hour t)) [e] blocks := by
          simp [group_blocks_go, hp]
        rw [hl]
        exact ih _ _ _ hrest
      | some start =>
        cases hlast : curEntries.getLast? with
        | none =>
          have hl : group_blocks_go parseTs cost now (e :: rest) (some start) curEntries blocks
              = group_blocks_go parseTs cost now rest (some start) (curEntries ++ [e])
                  blocks := by
            simp [group_blocks_go, hp, hlast]
          rw [hl]
          exact ih _ _ _ hrest
        | some last =>
          cases hpl : parseTs last.timestamp with
          | none => simp [group_blocks_go, hp, hlast, hpl]
          | some lastT =>
            by_cases hcl : (session_duration_ms < t - start
                ∨ session_duration_ms < t - lastT)
            · have hl : group_blocks_go parseTs cost now (e :: rest) (some start)
                    curEntries blocks
                  = group_blocks_go parseTs cost now rest (some (floor_to_hour t)) [e]
                      (blocks ++ [create_block_from_entries parseTs cost start curEntries
                        now session_duration_ms]) := by
                simp [group_blocks_go, hp, hlast, hpl, hcl]
              rw [hl]
              exact ih _ _ _ hrest
            · have hl : group_blocks_go parseTs cost now (e :: rest) (some start)
                    curEntries blocks
                  = group_blocks_go parseTs cost now rest (some start) (curEntries ++ [e])
                      blocks := by
                simp [group_blocks_go, hp, hlast, hpl, hcl]
              rw [hl]
              exact ih _ _ _ hrest

theorem group_into_blocks_error_of_bad_ts (parseTs : String → Option Int)
    (cost : UsageData → ℚ) (now : Int) (entries : List UsageData)
    (hbad : ∃ e ∈ entries, parseTs e.timestamp = none) :
    group_into_blocks parseTs cost now entries = .error () := by
  obtain ⟨e, hmem, hpe⟩ := hbad
  cases entries with
  | nil => exact absurd hmem (List.not_mem_nil _)
  | cons a as =>
    have hl : group_into_blocks parseTs cost now (a :: as)
        = group_blocks_go parseTs cost now (a :: as) none [] [] := by
      rw [group_into_blocks] <;> rfl
    rw [hl]
    exact group_blocks_go_error_of_bad_ts parseTs cost now (a :: as) none [] []
      ⟨e, hmem, hpe⟩

/-- Counterexample to C6: first, a scan whose root and project directory
are readable but whose single selected log file cannot be opened fails
instead of skipping the file and continuing; second, a scan in which every
read succeeds and the single line parses as a record whose timestamp fails
instant-parsing also fails instead of discarding the record. -/
theorem claim_C6_counterexample :
    (find_active_block (fun _ => none) (fun _ => none) (fun _ => 0) 0 0
        [some [⟨true, some [⟨true, none, none⟩]⟩]] = .error ()) ∧
    (find_active_block
        (fun l => if l = "good"
          then some ⟨"notadate", ⟨none, some "m", ⟨1, 2, 0, 0⟩⟩, some "r"⟩ else none)
        (fun _ => none) (fun _ => 0) 0 0
        [some [⟨true, some [⟨true, none, some [some "good"]⟩]⟩]] = .error ()) :=
  ⟨rfl, rfl⟩

/-- C6 as amended: the scan fails exactly when some visited read fails (an
unreadable root or project directory, an unreadable selected log file, or
a failed line read) - an unreadable individual file is fatal, not skipped;
a line that fails to parse as a usage record is silently discarded and the
scan continues; but a surviving record whose timestamp does not parse as
an instant fails the whole operation at the grouping stage. -/
theorem claim_C6_scan_failure (parseLine : String → Option UsageData)
    (parseTs : String → Option Int) (cost : UsageData → ℚ) (cutoff now : Int)
    (roots : List (Option (List FsDir))) (st : DedupState) (l : String)
    (rest : List (Option String)) (entries : List UsageData) :
    ((process_roots parseLine cutoff roots st = .error ())
        ↔ scan_stream cutoff roots = none) ∧
    (is_blank l = false → parseLine l = none →
      process_lines parseLine (some l :: rest) st = process_lines parseLine rest st) ∧
    ((∃ e ∈ entries, parseTs e.timestamp = none) →
      group_into_blocks parseTs cost now entries = .error ()) := by
  refine ⟨?_, ?_, ?_⟩
  · rw [process_roots_eq]
    cases hsc : scan_stream cutoff roots with
    | none => simp
    | some lines => simp
  · intro he hp
    have he2 : ¬ is_blank l = true := by simp [he]
    rw [process_lines, if_neg he2, hp]
  · exact group_into_blocks_error_of_bad_ts parseTs cost now entries

/-- Witness for C6 at concrete inputs: a single surviving entry whose
timestamp does not parse fails the grouping. -/
theorem claim_C6_scan_failure_witness :
    group_into_blocks (fun _ => none) (fun _ => 0) 0
        [⟨"x", ⟨none, none, ⟨0, 0, 0, 0⟩⟩, none⟩] = .error () :=
  (claim_C6_scan_failure (fun _ => none) (fun _ => none) (fun _ => 0) 0 0 [] ([], [])
      "y" [] [⟨"x", ⟨none, none, ⟨0, 0, 0, 0⟩⟩, none⟩]).2.2
    ⟨⟨"x", ⟨none, none, ⟨0, 0, 0, 0⟩⟩, none⟩, by simp, rfl⟩

end Ccusage
